import Mathlib

/-!
Verification development for the alx-polly poll/vote server actions
(`createPoll`, `getUserPolls`, `getPollById`, `submitVote`, `castVote`,
`deletePoll`, `updatePoll`).

The storage layer (Supabase tables `polls`, `votes`, `profiles`) is embedded
as explicit lists of rows; the ambient session is an explicit `SessionState`
argument; each storage write takes an `Option String` parameter standing for
the outcome the store reports for that single atomic write (`none` = the
write is accepted, `some m` = the store rejects it with message `m`).
All control flow, error message strings and field updates are transcribed
from the TypeScript source.
-/

namespace AlxPolly

/-- Row of the `polls` table: `id, question, options, user_id, created_at`. -/
structure PollRow where
  id : String
  question : String
  options : List String
  user_id : String
  created_at : String
deriving DecidableEq, Repr

/-- Row of the `votes` table: `poll_id, user_id, option_index, created_at`,
with a storage-level uniqueness constraint on `(poll_id, user_id)`. -/
structure VoteRow where
  poll_id : String
  user_id : String
  option_index : Int
  created_at : String
deriving DecidableEq, Repr

/-- Row of the `profiles` table (read by the admin page: `id, role`). -/
structure ProfileRow where
  id : String
  role : String
deriving DecidableEq, Repr

/-- The database state seen by the server actions. -/
structure DB where
  polls : List PollRow
  votes : List VoteRow
  profiles : List ProfileRow
deriving DecidableEq, Repr

/-- Authenticated user as returned by `supabase.auth.getUser()`; the actions
only ever read `user.id`. -/
structure UserT where
  id : String
deriving DecidableEq, Repr

/-- Outcome of `getAuthenticatedUser`: the session read may throw
(`failure`), return no user (`anon`), or return a user (`authed`). -/
inductive SessionState where
  | failure : SessionState
  | anon : SessionState
  | authed : UserT → SessionState
deriving DecidableEq, Repr

/-- JS `String.prototype.trim`: whitespace test on a character. -/
def isWsChar (c : Char) : Bool :=
  c == ' ' || c == '\t' || c == '\n' || c == '\r'

/-- Trim leading and trailing whitespace from a character list. -/
def trimChars (cs : List Char) : List Char :=
  ((cs.dropWhile isWsChar).reverse.dropWhile isWsChar).reverse

/-- Trim a string (model of JS `s.trim()`). -/
def trimStr (s : String) : String :=
  ⟨trimChars s.data⟩

/-- Hex digit test, case-insensitive. -/
def isHexDigit (c : Char) : Bool :=
  c.isDigit || ('a' ≤ c && c ≤ 'f') || ('A' ≤ c && c ≤ 'F')

/-- Consume exactly `n` hex digits from the front of `cs`, returning the
remainder, or `none`. -/
def hexRun : Nat → List Char → Option (List Char)
  | 0, rest => some rest
  | n + 1, c :: rest => if isHexDigit c then hexRun n rest else none
  | _ + 1, [] => none

/-- Consume a literal dash. -/
def expectDash : List Char → Option (List Char)
  | '-' :: rest => some rest
  | _ => none

/-- Model of `z.string().uuid()`: the 8-4-4-4-12 hexadecimal UUID shape. -/
def isUuid (s : String) : Bool :=
  match (((((((((hexRun 8 s.data).bind expectDash).bind (hexRun 4)).bind
      expectDash).bind (hexRun 4)).bind expectDash).bind (hexRun 4)).bind
      expectDash).bind (hexRun 12)) with
  | some [] => true
  | _ => false

/-- Key predicate of the `(poll_id, user_id)` uniqueness constraint. -/
def voteKeyMatch (p u : String) (r : VoteRow) : Bool :=
  r.poll_id == p && r.user_id == u

/-- Atomic upsert on the `votes` table with `onConflict: (poll_id, user_id)`:
if a row with the key exists it is replaced, otherwise the row is appended. -/
def upsertVote (votes : List VoteRow) (v : VoteRow) : List VoteRow :=
  if votes.any (voteKeyMatch v.poll_id v.user_id) then
    votes.map (fun r => if voteKeyMatch v.poll_id v.user_id r then v else r)
  else
    votes ++ [v]

/-- All vote rows stored for a given `(poll, voter)` key. -/
def votesFor (votes : List VoteRow) (p u : String) : List VoteRow :=
  votes.filter (voteKeyMatch p u)

/-- PostgREST error message surfaced by `.single()` when the query does not
return exactly one row; `deletePoll`/`updatePoll` return it verbatim as
`findErr.message`. -/
def singleRowErrorMsg : String :=
  "JSON object requested, multiple (or no) rows returned"

/-- Select `.eq("id", id).single()` on the `polls` table. -/
def findPoll (db : DB) (id : String) : Option PollRow :=
  match db.polls.filter (fun r => r.id == id) with
  | [r] => some r
  | _ => none

/-- Per-option issues of `z.string().min(1).max(300)` inside the options
array of `CreateUpdatePollSchema` (one zod issue per violated rule). -/
def optionMsgs (o : String) : List String :=
  (if o.data.length < 1 then ["String must contain at least 1 character(s)"] else []) ++
  (if 300 < o.data.length then ["String must contain at most 300 character(s)"] else [])

/-- Issue messages of `CreateUpdatePollSchema.safeParse {question, options}`:
question length in [5,1000], option count in [2,50], each option length in
[1,300]; one message per violated rule, in zod field order. -/
def validatePollInput (question : String) (options : List String) : List String :=
  (if question.data.length < 5 then ["Question is too short"] else []) ++
  (if 1000 < question.data.length then ["String must contain at most 1000 character(s)"] else []) ++
  (if options.length < 2 then ["At least two options are required"] else []) ++
  (if 50 < options.length then ["Array must contain at most 50 element(s)"] else []) ++
  options.foldr (fun o acc => optionMsgs o ++ acc) []

/-- The option normalization both `createPoll` and `updatePoll` perform:
`formData.getAll("options").filter(Boolean)` followed by
`.map((o) => String(o).trim()).filter(Boolean)`. -/
def normalizeOptions (raw : List String) : List String :=
  ((raw.filter (fun s => s != "")).map trimStr).filter (fun s => s != "")

/-- Issue messages of `SubmitVoteSchema.safeParse`: `pollId` must be
UUID-shaped, `optionIndex` a nonnegative integer. -/
def submitVoteMsgs (pollId : String) (optionIndex : Int) : List String :=
  (if isUuid pollId then [] else ["Invalid uuid"]) ++
  (if optionIndex < 0 then ["Number must be greater than or equal to 0"] else [])

/-- Result of operations that return `{ error: string | null }`. -/
structure EnvResult where
  error : Option String
deriving DecidableEq, Repr

/-- Result of `getUserPolls`: `{ polls, error }`. -/
structure GetUserPollsResult where
  polls : List PollRow
  error : Option String
deriving DecidableEq, Repr

/-- Result of `getPollById`: `{ poll, error }`. -/
structure GetPollByIdResult where
  poll : Option PollRow
  error : Option String
deriving DecidableEq, Repr

/-- Result of `castVote`: `{ success, error }` on failure,
`{ success, data }` on success. -/
structure CastVoteResult where
  success : Bool
  error : Option String
  data : Option (List VoteRow)
deriving DecidableEq, Repr

/-- Field names of the object literal `castVote` actually returns:
`{ success: false, error }` or `{ success: true, data }`. -/
def castVoteFields (r : CastVoteResult) : List String :=
  if r.success then ["success", "data"] else ["success", "error"]

/-- Field names allowed by the result-envelope standard documented in the
actions file: `{ error: string | null, data?: any }`. -/
def isEnvelopeField (f : String) : Prop :=
  f = "error" ∨ f = "data"

/-- Insert a poll into a list sorted by `created_at` descending
(`.order("created_at", { ascending: false })`). -/
def insertByCreatedDesc (p : PollRow) : List PollRow → List PollRow
  | [] => [p]
  | q :: rest =>
    if q.created_at ≤ p.created_at then p :: q :: rest
    else q :: insertByCreatedDesc p rest

/-- Sort polls newest-first by `created_at`. -/
def sortByCreatedDesc (ps : List PollRow) : List PollRow :=
  ps.foldr insertByCreatedDesc []

/-- The `createPoll` server action. `now` is `new Date().toISOString()`,
`newId` the id the store assigns to the inserted row, `werr` the outcome of
the `insert` storage call. -/
def createPoll (db : DB) (sess : SessionState) (now newId : String)
    (werr : Option String) (question : String) (optionsRaw : List String) :
    EnvResult × DB :=
  if (validatePollInput question (normalizeOptions optionsRaw)).isEmpty then
    match sess with
    | .failure => (⟨some "Unable to verify session."⟩, db)
    | .anon => (⟨some "You must be logged in to create a poll."⟩, db)
    | .authed user =>
      match werr with
      | some m => (⟨some m⟩, db)
      | none =>
        (⟨none⟩,
          { db with polls := db.polls ++
              [⟨newId, question, normalizeOptions optionsRaw, user.id, now⟩] })
  else
    (⟨some (String.intercalate ", "
        (validatePollInput question (normalizeOptions optionsRaw)))⟩, db)

/-- The `getUserPolls` server action. -/
def getUserPolls (db : DB) (sess : SessionState) : GetUserPollsResult :=
  match sess with
  | .failure => ⟨[], some "Failed to read session"⟩
  | .anon => ⟨[], some "Not authenticated"⟩
  | .authed user =>
    ⟨sortByCreatedDesc (db.polls.filter (fun r => r.user_id == user.id)), none⟩

/-- The `getPollById` server action. -/
def getPollById (db : DB) (id : String) : GetPollByIdResult :=
  if id == "" then ⟨none, some "Invalid poll id"⟩
  else
    match findPoll db id with
    | none => ⟨none, some singleRowErrorMsg⟩
    | some p => ⟨some p, none⟩

/-- The `submitVote` server action: validate shape, require login, fetch the
live poll (`"Poll not found."` if absent), bounds-check `optionIndex`
against the live options (`"Invalid option selected."`), then a single
atomic upsert keyed on `(poll_id, user_id)`. -/
def submitVote (db : DB) (sess : SessionState) (now : String)
    (werr : Option String) (pollIdRaw : String) (optionIndexRaw : Int) :
    EnvResult × DB :=
  if (submitVoteMsgs pollIdRaw optionIndexRaw).isEmpty then
    match sess with
    | .failure => (⟨some "Failed to verify session."⟩, db)
    | .anon => (⟨some "You must be logged in to vote."⟩, db)
    | .authed user =>
      match findPoll db pollIdRaw with
      | none => (⟨some "Poll not found."⟩, db)
      | some poll =>
        if optionIndexRaw < 0 ∨ (poll.options.length : Int) ≤ optionIndexRaw then
          (⟨some "Invalid option selected."⟩, db)
        else
          match werr with
          | some m => (⟨some m⟩, db)
          | none =>
            (⟨none⟩,
              { db with votes :=
                  upsertVote db.votes ⟨pollIdRaw, user.id, optionIndexRaw, now⟩ })
  else
    (⟨some (String.intercalate ", " (submitVoteMsgs pollIdRaw optionIndexRaw))⟩, db)

/-- The `castVote` server action: only checks `poll_id`/`user_id` non-empty,
then upserts the caller-supplied vote with no session, existence or bounds
check; `.select()` returns the upserted rows as `data`. -/
def castVote (db : DB) (now : String) (werr : Option String)
    (poll_id user_id : String) (option_index : Int) : CastVoteResult × DB :=
  if poll_id == "" || user_id == "" then
    (⟨false, some "Missing poll_id or user_id", none⟩, db)
  else
    match werr with
    | some m => (⟨false, some m, none⟩, db)
    | none =>
      (⟨true, none, some [⟨poll_id, user_id, option_index, now⟩]⟩,
        { db with votes := upsertVote db.votes ⟨poll_id, user_id, option_index, now⟩ })

/-- The `deletePoll` server action: non-empty id, login, `.single()` lookup
(whose storage error message is returned verbatim when the poll is absent),
ownership check, then delete (votes cascade via the DB constraint). -/
def deletePoll (db : DB) (sess : SessionState) (werr : Option String)
    (id : String) : EnvResult × DB :=
  if id == "" then (⟨some "Invalid poll id"⟩, db)
  else
    match sess with
    | .failure => (⟨some "Failed to verify session."⟩, db)
    | .anon => (⟨some "Not authenticated"⟩, db)
    | .authed user =>
      match findPoll db id with
      | none => (⟨some singleRowErrorMsg⟩, db)
      | some existing =>
        if existing.user_id != user.id then
          (⟨some "Forbidden: you do not own this poll."⟩, db)
        else
          match werr with
          | some m => (⟨some m⟩, db)
          | none =>
            (⟨none⟩,
              { db with polls := db.polls.filter (fun r => r.id != id),
                        votes := db.votes.filter (fun v => v.poll_id != id) })

/-- The `updatePoll` server action: validate, login, `.single()` lookup,
ownership check, then `update({question, options}).eq("id", pollId)`. -/
def updatePoll (db : DB) (sess : SessionState) (werr : Option String)
    (pollId question : String) (optionsRaw : List String) : EnvResult × DB :=
  if (validatePollInput question (normalizeOptions optionsRaw)).isEmpty then
    match sess with
    | .failure => (⟨some "Unable to verify session."⟩, db)
    | .anon => (⟨some "You must be logged in to update a poll."⟩, db)
    | .authed user =>
      match findPoll db pollId with
      | none => (⟨some singleRowErrorMsg⟩, db)
      | some existing =>
        if existing.user_id != user.id then
          (⟨some "Forbidden: you do not own this poll."⟩, db)
        else
          match werr with
          | some m => (⟨some m⟩, db)
          | none =>
            (⟨none⟩,
              { db with polls := db.polls.map (fun r =>
                  if r.id == pollId then
                    { r with question := question,
                             options := normalizeOptions optionsRaw }
                  else r) })
  else
    (⟨some (String.intercalate ", "
        (validatePollInput question (normalizeOptions optionsRaw)))⟩, db)

/-- All interleavings of two sequences of atomic storage operations. -/
def interleavings {α : Type} : List α → List α → List (List α)
  | [], ys => [ys]
  | x :: xs, [] => [x :: xs]
  | x :: xs, y :: ys =>
    (interleavings xs (y :: ys)).map (x :: ·) ++
    (interleavings (x :: xs) ys).map (y :: ·)
termination_by xs ys => xs.length + ys.length

/-- Repeated `submitVote` calls by the same voter on the same poll, each
submission a pair (option index, timestamp) and each accepted by the store. -/
def submitMany (db : DB) (sess : SessionState) (p : String)
    (subs : List (Int × String)) : DB :=
  subs.foldl (fun d s => (submitVote d sess s.2 none p s.1).2) db

lemma voteKeyMatch_self (v : VoteRow) : voteKeyMatch v.poll_id v.user_id v = true := by
  simp [voteKeyMatch]

lemma filter_map_upsert (votes : List VoteRow) (v : VoteRow) :
    (votes.map (fun r => if voteKeyMatch v.poll_id v.user_id r then v else r)).filter
        (voteKeyMatch v.poll_id v.user_id)
      = (votes.filter (voteKeyMatch v.poll_id v.user_id)).map (fun _ => v) := by
  induction votes with
  | nil => simp
  | cons a as ih =>
    by_cases ha : voteKeyMatch v.poll_id v.user_id a = true
    · simp only [List.map_cons, List.filter_cons, ha, if_pos, voteKeyMatch_self, ih]
    · simp only [List.map_cons, List.filter_cons, ha, if_neg, Bool.false_eq_true,
        not_false_eq_true, ite_false, ih]

/-- One atomic upsert leaves exactly the upserted row under its key, provided
the uniqueness constraint held before (at most one row under the key). -/
lemma votesFor_upsertVote (votes : List VoteRow) (v : VoteRow)
    (h : (votesFor votes v.poll_id v.user_id).length ≤ 1) :
    votesFor (upsertVote votes v) v.poll_id v.user_id = [v] := by
  unfold upsertVote votesFor
  by_cases hc : votes.any (voteKeyMatch v.poll_id v.user_id) = true
  · rw [if_pos hc, filter_map_upsert]
    obtain ⟨r, hr, hkr⟩ := List.any_eq_true.mp hc
    have hmem : r ∈ votes.filter (voteKeyMatch v.poll_id v.user_id) :=
      List.mem_filter.mpr ⟨hr, hkr⟩
    have h1 : (votes.filter (voteKeyMatch v.poll_id v.user_id)).length = 1 := by
      have h0 := List.length_pos.mpr (List.ne_nil_of_mem hmem)
      unfold votesFor at h
      omega
    obtain ⟨a, ha⟩ := List.length_eq_one.mp h1
    rw [ha]
    rfl
  · rw [if_neg hc]
    have hnil : votes.filter (voteKeyMatch v.poll_id v.user_id) = [] := by
      rw [List.filter_eq_nil_iff]
      intro a hamem hk
      exact hc (List.any_eq_true.mpr ⟨a, hamem, hk⟩)
    rw [List.filter_append, hnil]
    simp [voteKeyMatch_self]

/-- The successful path of `submitVote`: all checks pass and the whole
effect is one atomic upsert on the `votes` table. -/
lemma submitVote_authed_success (db : DB) (u : UserT) (now p : String)
    (i : Int) (poll : PollRow)
    (hu : isUuid p = true) (hi : 0 ≤ i)
    (hfind : findPoll db p = some poll)
    (hlt : i < (poll.options.length : Int)) :
    submitVote db (.authed u) now none p i =
      (⟨none⟩, { db with votes := upsertVote db.votes ⟨p, u.id, i, now⟩ }) := by
  have hmsgs : submitVoteMsgs p i = [] := by
    unfold submitVoteMsgs
    rw [if_pos hu, if_neg (not_lt.mpr hi)]
    rfl
  simp only [submitVote, hmsgs, List.isEmpty_nil, if_true, hfind]
  rw [if_neg (by omega : ¬(i < 0 ∨ (poll.options.length : Int) ≤ i))]

lemma submitMany_getLast (u : UserT) (p : String) (poll : PollRow) :
    ∀ (subs : List (Int × String)) (db : DB) (last : Int × String),
    subs.getLast? = some last →
    isUuid p = true →
    findPoll db p = some poll →
    (votesFor db.votes p u.id).length ≤ 1 →
    (∀ s ∈ subs, 0 ≤ s.1 ∧ s.1 < (poll.options.length : Int)) →
    votesFor (submitMany db (.authed u) p subs).votes p u.id
      = [⟨p, u.id, last.1, last.2⟩] := by
  intro subs
  induction subs with
  | nil => intro db last hlast; simp at hlast
  | cons s rest ih =>
    intro db last hlast hu hfind huniq hvalid
    have hs := hvalid s (List.mem_cons_self s rest)
    have hstep : submitVote db (.authed u) s.2 none p s.1 =
        (⟨none⟩, { db with votes := upsertVote db.votes ⟨p, u.id, s.1, s.2⟩ }) :=
      submitVote_authed_success db u s.2 p s.1 poll hu hs.1 hfind hs.2
    have hsm : submitMany db (.authed u) p (s :: rest) =
        submitMany { db with votes := upsertVote db.votes ⟨p, u.id, s.1, s.2⟩ }
          (.authed u) p rest := by
      simp [submitMany, List.foldl_cons, hstep]
    have hone : votesFor (upsertVote db.votes ⟨p, u.id, s.1, s.2⟩) p u.id
        = [⟨p, u.id, s.1, s.2⟩] :=
      votesFor_upsertVote db.votes ⟨p, u.id, s.1, s.2⟩ huniq
    cases rest with
    | nil =>
      have hls : last = s := by
        simp [List.getLast?] at hlast
        exact hlast.symm
      subst hls
      rw [hsm]
      exact hone
    | cons s2 rest2 =>
      rw [hsm]
      have hlast2 : (s2 :: rest2).getLast? = some last := by
        rwa [List.getLast?_cons_cons] at hlast
      refine ih _ last hlast2 hu hfind ?_ ?_
      · rw [hone]
        simp
      · intro x hx
        exact hvalid x (List.mem_cons_of_mem s hx)

/-- Two successive upserts under the same `(poll_id, user_id)` key collapse
to exactly the later row, given the uniqueness invariant beforehand. -/
lemma upsert_twice_one_row (votes : List VoteRow) (v w : VoteRow)
    (hpw : w.poll_id = v.poll_id) (huw : w.user_id = v.user_id)
    (h : (votesFor votes v.poll_id v.user_id).length ≤ 1) :
    votesFor (upsertVote (upsertVote votes v) w) v.poll_id v.user_id = [w] := by
  have h1 := votesFor_upsertVote votes v h
  have h2 : (votesFor (upsertVote votes v) w.poll_id w.user_id).length ≤ 1 := by
    rw [hpw, huw, h1]
    simp
  have h3 := votesFor_upsertVote (upsertVote votes v) w h2
  rw [hpw, huw] at h3
  exact h3

/-- Concrete fixtures used by the witnesses below. -/
def uuid1 : String := "123e4567-e89b-12d3-a456-426614174000"

def alice : UserT := ⟨"alice"⟩

def bob : UserT := ⟨"bob"⟩

/-- A poll owned by alice. -/
def pollRed : PollRow :=
  ⟨uuid1, "Best color?", ["Red", "Blue"], "alice", "2024-01-01T00:00:00.000Z"⟩

/-- Database with alice's poll, no votes, and bob registered as admin in the
`profiles` table. -/
def db0 : DB := ⟨[pollRed], [], [⟨"bob", "admin"⟩]⟩

/-- C2: for every poll identifier and voter identity, submitting N ≥ 1
successive votes with valid option indices via `submitVote` leaves exactly
one `votes` row keyed by that (poll, voter) pair, whose `option_index`
equals the last submitted value; repeat submission overwrites rather than
creating a new row. -/
theorem claim_C2_submitVote_idempotent_overwrite (u : UserT) (p : String)
    (poll : PollRow) (subs : List (Int × String)) (db : DB)
    (last : Int × String)
    (hlast : subs.getLast? = some last)
    (hu : isUuid p = true)
    (hfind : findPoll db p = some poll)
    (huniq : (votesFor db.votes p u.id).length ≤ 1)
    (hvalid : ∀ s ∈ subs, 0 ≤ s.1 ∧ s.1 < (poll.options.length : Int)) :
    votesFor (submitMany db (.authed u) p subs).votes p u.id
      = [⟨p, u.id, last.1, last.2⟩] :=
  submitMany_getLast u p poll subs db last hlast hu hfind huniq hvalid

theorem claim_C2_witness :
    votesFor (submitMany db0 (.authed alice) uuid1 [(0, "t1"), (1, "t2")]).votes
        uuid1 "alice"
      = [⟨uuid1, "alice", 1, "t2"⟩] :=
  claim_C2_submitVote_idempotent_overwrite alice uuid1 pollRed
    [(0, "t1"), (1, "t2")] db0 (1, "t2") (by decide) (by decide) (by decide)
    (by decide) (by decide)

/-- C3: two concurrent `submitVote` calls from the same voter on the same
poll never produce two rows: each call's entire vote write is one atomic
upsert keyed on `(poll_id, user_id)` (not a read-then-write pair), and every
interleaving of the two atomic upserts leaves exactly one row under the key,
equal to one of the two submitted payloads. -/
theorem claim_C3_concurrent_upserts_one_row (db : DB) (u : UserT)
    (t1 t2 p : String) (i1 i2 : Int) (poll : PollRow)
    (hu : isUuid p = true) (h1 : 0 ≤ i1) (h2 : 0 ≤ i2)
    (hfind : findPoll db p = some poll)
    (hlt1 : i1 < (poll.options.length : Int))
    (hlt2 : i2 < (poll.options.length : Int))
    (huniq : (votesFor db.votes p u.id).length ≤ 1) :
    (submitVote db (.authed u) t1 none p i1).2
        = { db with votes := upsertVote db.votes ⟨p, u.id, i1, t1⟩ } ∧
    (submitVote db (.authed u) t2 none p i2).2
        = { db with votes := upsertVote db.votes ⟨p, u.id, i2, t2⟩ } ∧
    ∀ ws ∈ interleavings [(⟨p, u.id, i1, t1⟩ : VoteRow)] [⟨p, u.id, i2, t2⟩],
      (votesFor (ws.foldl upsertVote db.votes) p u.id).length = 1 ∧
      (votesFor (ws.foldl upsertVote db.votes) p u.id = [⟨p, u.id, i1, t1⟩] ∨
        votesFor (ws.foldl upsertVote db.votes) p u.id = [⟨p, u.id, i2, t2⟩]) := by
  refine ⟨?_, ?_, ?_⟩
  · rw [submitVote_authed_success db u t1 p i1 poll hu h1 hfind hlt1]
  · rw [submitVote_authed_success db u t2 p i2 poll hu h2 hfind hlt2]
  · have hint : interleavings [(⟨p, u.id, i1, t1⟩ : VoteRow)] [⟨p, u.id, i2, t2⟩]
        = [[⟨p, u.id, i1, t1⟩, ⟨p, u.id, i2, t2⟩],
           [⟨p, u.id, i2, t2⟩, ⟨p, u.id, i1, t1⟩]] := by
      simp [interleavings]
    intro ws hws
    rw [hint] at hws
    rcases List.mem_cons.mp hws with hw | hw
    · subst hw
      have h12 : votesFor
          (List.foldl upsertVote db.votes
            [⟨p, u.id, i1, t1⟩, ⟨p, u.id, i2, t2⟩]) p u.id
          = [⟨p, u.id, i2, t2⟩] :=
        upsert_twice_one_row db.votes ⟨p, u.id, i1, t1⟩ ⟨p, u.id, i2, t2⟩
          rfl rfl huniq
      rw [h12]
      exact ⟨rfl, Or.inr rfl⟩
    · rcases List.mem_cons.mp hw with hw2 | hw2
      · subst hw2
        have h21 : votesFor
            (List.foldl upsertVote db.votes
              [⟨p, u.id, i2, t2⟩, ⟨p, u.id, i1, t1⟩]) p u.id
            = [⟨p, u.id, i1, t1⟩] :=
          upsert_twice_one_row db.votes ⟨p, u.id, i2, t2⟩ ⟨p, u.id, i1, t1⟩
            rfl rfl huniq
        rw [h21]
        exact ⟨rfl, Or.inl rfl⟩
      · cases hw2

theorem claim_C3_witness :
    (submitVote db0 (.authed alice) "t1" none uuid1 0).2
        = { db0 with votes := upsertVote db0.votes ⟨uuid1, "alice", 0, "t1"⟩ } ∧
    (submitVote db0 (.authed alice) "t2" none uuid1 1).2
        = { db0 with votes := upsertVote db0.votes ⟨uuid1, "alice", 1, "t2"⟩ } ∧
    ∀ ws ∈ interleavings [(⟨uuid1, "alice", 0, "t1"⟩ : VoteRow)]
        [⟨uuid1, "alice", 1, "t2"⟩],
      (votesFor (ws.foldl upsertVote db0.votes) uuid1 "alice").length = 1 ∧
      (votesFor (ws.foldl upsertVote db0.votes) uuid1 "alice"
          = [⟨uuid1, "alice", 0, "t1"⟩] ∨
        votesFor (ws.foldl upsertVote db0.votes) uuid1 "alice"
          = [⟨uuid1, "alice", 1, "t2"⟩]) :=
  claim_C3_concurrent_upserts_one_row db0 alice "t1" "t2" uuid1 0 1 pollRed
    (by decide) (by decide) (by decide) (by decide) (by decide) (by decide)
    (by decide)

/-- C4: for every `submitVote` call with a UUID-shaped `pollId` and
nonnegative `optionIndex`: if the poll does not exist the call fails with
the not-found error and writes nothing; if the poll exists and
`optionIndex` is at or above the current live option count the call fails
with the validation error and writes nothing. -/
theorem claim_C4_submitVote_notfound_and_bounds (db : DB) (u : UserT)
    (now : String) (werr : Option String) (p : String) (i : Int)
    (hu : isUuid p = true) (hi : 0 ≤ i) :
    (findPoll db p = none →
      submitVote db (.authed u) now werr p i = (⟨some "Poll not found."⟩, db)) ∧
    (∀ poll, findPoll db p = some poll → (poll.options.length : Int) ≤ i →
      submitVote db (.authed u) now werr p i
        = (⟨some "Invalid option selected."⟩, db)) := by
  have hmsgs : submitVoteMsgs p i = [] := by
    unfold submitVoteMsgs
    rw [if_pos hu, if_neg (not_lt.mpr hi)]
    rfl
  constructor
  · intro hfind
    simp only [submitVote, hmsgs, List.isEmpty_nil, if_true, hfind]
  · intro poll hfind hle
    simp only [submitVote, hmsgs, List.isEmpty_nil, if_true, hfind]
    rw [if_pos (Or.inr hle)]

theorem claim_C4_witness :
    submitVote ⟨[], [], []⟩ (.authed alice) "t" none uuid1 0
        = (⟨some "Poll not found."⟩, ⟨[], [], []⟩) ∧
    submitVote db0 (.authed alice) "t" none uuid1 5
        = (⟨some "Invalid option selected."⟩, db0) :=
  ⟨(claim_C4_submitVote_notfound_and_bounds ⟨[], [], []⟩ alice "t" none uuid1 0
      (by decide) (by decide)).1 (by decide),
    (claim_C4_submitVote_notfound_and_bounds db0 alice "t" none uuid1 5
      (by decide) (by decide)).2 pollRed (by decide) (by decide)⟩

lemma mem_foldr_optionMsgs {m o : String} {options : List String}
    (ho : o ∈ options) (hm : m ∈ optionMsgs o) :
    m ∈ options.foldr (fun o acc => optionMsgs o ++ acc) [] := by
  induction options with
  | nil => cases ho
  | cons a as ih =>
    simp only [List.foldr_cons]
    rcases List.mem_cons.mp ho with h | h
    · subst h
      exact List.mem_append_left _ hm
    · exact List.mem_append_right _ (ih h)

/-- Any violation of the question/option bounds produces at least one
validation message. -/
lemma validatePollInput_ne_nil {question : String} {options : List String}
    (hviol : question.data.length < 5 ∨ 1000 < question.data.length ∨
      options.length < 2 ∨ 50 < options.length ∨
      ∃ o ∈ options, o.data.length < 1 ∨ 300 < o.data.length) :
    validatePollInput question options ≠ [] := by
  intro hnil
  unfold validatePollInput at hnil
  simp only [List.append_eq_nil] at hnil
  obtain ⟨⟨⟨⟨hA, hB⟩, hC⟩, hD⟩, hE⟩ := hnil
  rcases hviol with h | h | h | h | ⟨o, ho, hvo⟩
  · rw [if_pos h] at hA
    simp at hA
  · rw [if_pos h] at hB
    simp at hB
  · rw [if_pos h] at hC
    simp at hC
  · rw [if_pos h] at hD
    simp at hD
  · have hms : optionMsgs o ≠ [] := by
      unfold optionMsgs
      rcases hvo with h1 | h1
      · rw [if_pos h1]
        simp
      · rw [if_pos h1]
        simp
    obtain ⟨m, hmm⟩ := List.exists_mem_of_ne_nil (optionMsgs o) hms
    have hmem := mem_foldr_optionMsgs ho hmm
    rw [hE] at hmem
    exact (List.not_mem_nil m) hmem

/-- C5: `createPoll` first trims each option and drops empty ones, then for
every input whose question length is outside [5,1000], whose resulting
option count is outside [2,50], or where some option length is outside
[1,300], it fails with one validation message per violated rule (joined for
display), independently of the session (so before identity resolution), and
no poll row is created. -/
theorem claim_C5_createPoll_validation_first (db : DB) (sess : SessionState)
    (now newId : String) (werr : Option String) (question : String)
    (optionsRaw : List String)
    (hviol : question.data.length < 5 ∨ 1000 < question.data.length ∨
      (normalizeOptions optionsRaw).length < 2 ∨
      50 < (normalizeOptions optionsRaw).length ∨
      ∃ o ∈ normalizeOptions optionsRaw,
        o.data.length < 1 ∨ 300 < o.data.length) :
    validatePollInput question (normalizeOptions optionsRaw) ≠ [] ∧
    createPoll db sess now newId werr question optionsRaw
      = (⟨some (String.intercalate ", "
          (validatePollInput question (normalizeOptions optionsRaw)))⟩, db) := by
  have hne := validatePollInput_ne_nil hviol
  refine ⟨hne, ?_⟩
  cases hl : validatePollInput question (normalizeOptions optionsRaw) with
  | nil => exact absurd hl hne
  | cons a as => simp [createPoll, hl]

theorem claim_C5_witness :
    validatePollInput "Hi" (normalizeOptions ["Red"]) ≠ [] ∧
    createPoll db0 .anon "t" "pid" none "Hi" ["Red"]
      = (⟨some (String.intercalate ", "
          (validatePollInput "Hi" (normalizeOptions ["Red"])))⟩, db0) :=
  claim_C5_createPoll_validation_first db0 .anon "t" "pid" none "Hi" ["Red"]
    (Or.inl (by decide))

/-- C6: for every existing poll and every authenticated actor whose identity
differs from the poll's owner (roles, including admin, are never consulted
by `updatePoll`), the call fails with the Forbidden error and the database —
in particular the poll's stored question and options — is unchanged. -/
theorem claim_C6_updatePoll_non_owner_forbidden (db : DB) (u : UserT)
    (werr : Option String) (pollId question : String)
    (optionsRaw : List String) (existing : PollRow)
    (hval : validatePollInput question (normalizeOptions optionsRaw) = [])
    (hfind : findPoll db pollId = some existing)
    (hown : existing.user_id ≠ u.id) :
    updatePoll db (.authed u) werr pollId question optionsRaw
      = (⟨some "Forbidden: you do not own this poll."⟩, db) := by
  have hbne : (existing.user_id != u.id) = true := bne_iff_ne.mpr hown
  simp only [updatePoll, hval, List.isEmpty_nil, if_true, hfind, hbne]

theorem claim_C6_witness :
    updatePoll db0 (.authed bob) none uuid1 "Best color?" ["Red", "Blue"]
      = (⟨some "Forbidden: you do not own this poll."⟩, db0) :=
  claim_C6_updatePoll_non_owner_forbidden db0 bob none uuid1 "Best color?"
    ["Red", "Blue"] pollRed (by decide) (by decide) (by decide)

/-- C7: a successful `updatePoll` by the owner replaces only the poll's
question and options; the identifier, owner identity and creation timestamp
of every stored poll are unchanged, and the votes table is untouched. -/
theorem claim_C7_updatePoll_preserves_frame (db : DB) (u : UserT)
    (pollId question : String) (optionsRaw : List String) (existing : PollRow)
    (hval : validatePollInput question (normalizeOptions optionsRaw) = [])
    (hfind : findPoll db pollId = some existing)
    (hown : existing.user_id = u.id) :
    updatePoll db (.authed u) none pollId question optionsRaw
      = (⟨none⟩, { db with polls := db.polls.map (fun r =>
          if r.id == pollId then
            { r with question := question,
                     options := normalizeOptions optionsRaw }
          else r) }) ∧
    (updatePoll db (.authed u) none pollId question optionsRaw).2.polls.map
        (fun r => (r.id, r.user_id, r.created_at))
      = db.polls.map (fun r => (r.id, r.user_id, r.created_at)) ∧
    (updatePoll db (.authed u) none pollId question optionsRaw).2.votes
      = db.votes := by
  have hbne : (existing.user_id != u.id) = false := by
    simp [hown]
  have heq : updatePoll db (.authed u) none pollId question optionsRaw
      = (⟨none⟩, { db with polls := db.polls.map (fun r =>
          if r.id == pollId then
            { r with question := question,
                     options := normalizeOptions optionsRaw }
          else r) }) := by
    simp only [updatePoll, hval, List.isEmpty_nil, if_true, hfind, hbne,
      Bool.false_eq_true, if_false]
  refine ⟨heq, ?_, ?_⟩
  · rw [heq]
    simp only [List.map_map]
    have hfun : ((fun r : PollRow => (r.id, r.user_id, r.created_at)) ∘
        (fun r : PollRow => if r.id == pollId then
          { r with question := question,
                   options := normalizeOptions optionsRaw }
        else r)) = fun r : PollRow => (r.id, r.user_id, r.created_at) := by
      funext r
      by_cases hr : (r.id == pollId) = true
      · simp [Function.comp, hr]
      · simp [Function.comp, hr]
    rw [hfun]
  · rw [heq]

theorem claim_C7_witness :
    updatePoll db0 (.authed alice) none uuid1 "Best colour?" ["Red", "Green"]
      = (⟨none⟩, { db0 with polls := db0.polls.map (fun r =>
          if r.id == uuid1 then
            { r with question := "Best colour?",
                     options := normalizeOptions ["Red", "Green"] }
          else r) }) ∧
    (updatePoll db0 (.authed alice) none uuid1 "Best colour?"
        ["Red", "Green"]).2.polls.map
        (fun r => (r.id, r.user_id, r.created_at))
      = db0.polls.map (fun r => (r.id, r.user_id, r.created_at)) ∧
    (updatePoll db0 (.authed alice) none uuid1 "Best colour?"
        ["Red", "Green"]).2.votes
      = db0.votes :=
  claim_C7_updatePoll_preserves_frame db0 alice uuid1 "Best colour?"
    ["Red", "Green"] pollRed (by decide) (by decide) (by decide)

/-- C8: in `deletePoll` and `updatePoll` the existence lookup comes before
the ownership comparison: on a nonexistent poll id both return the
`.single()` not-found storage error — never the Forbidden authorization
error — for every caller. -/
theorem claim_C8_lookup_before_ownership (db : DB) (u : UserT)
    (werr : Option String) (id question : String) (optionsRaw : List String)
    (hid : id ≠ "") (hfind : findPoll db id = none) :
    deletePoll db (.authed u) werr id = (⟨some singleRowErrorMsg⟩, db) ∧
    singleRowErrorMsg ≠ "Forbidden: you do not own this poll." ∧
    (validatePollInput question (normalizeOptions optionsRaw) = [] →
      updatePoll db (.authed u) werr id question optionsRaw
        = (⟨some singleRowErrorMsg⟩, db)) := by
  refine ⟨?_, by decide, ?_⟩
  · have hbeq : (id == "") = false := beq_eq_false_iff_ne.mpr hid
    simp only [deletePoll, hbeq, Bool.false_eq_true, if_false, hfind]
  · intro hval
    simp only [updatePoll, hval, List.isEmpty_nil, if_true, hfind]

theorem claim_C8_witness :
    deletePoll db0 (.authed bob) none "nope" = (⟨some singleRowErrorMsg⟩, db0) ∧
    singleRowErrorMsg ≠ "Forbidden: you do not own this poll." ∧
    updatePoll db0 (.authed bob) none "nope" "Best color?" ["Red", "Blue"]
      = (⟨some singleRowErrorMsg⟩, db0) := by
  have h := claim_C8_lookup_before_ownership db0 bob none "nope" "Best color?"
    ["Red", "Blue"] (by decide) (by decide)
  exact ⟨h.1, h.2.1, h.2.2 (by decide)⟩

/-- C1 (refuted by the code): the spec's rule allows delete iff the actor is
the owner OR has the admin role, but `deletePoll` compares only
`existing.user_id !== user.id` and never reads a role: bob, registered with
role "admin" in the `profiles` table, is denied deleting alice's poll with
the Forbidden error and the database is unchanged. -/
theorem claim_C1_admin_delete_denied :
    deletePoll db0 (.authed bob) none uuid1
      = (⟨some "Forbidden: you do not own this poll."⟩, db0) ∧
    (db0.profiles.filter (fun pr => pr.id == bob.id)).map (fun pr => pr.role)
      = ["admin"] := by
  decide

/-- C9 (refuted by the code): the documented result envelope is
`{ error: text-or-absent, data: optional payload }`, but `castVote` returns
object literals `{ success, error }` / `{ success, data }`, whose `success`
field is not an envelope field. -/
theorem claim_C9_castVote_breaks_envelope :
    castVoteFields (castVote ⟨[], [], []⟩ "t" none "p1" "u1" 0).1
      = ["success", "data"] ∧
    ¬ isEnvelopeField "success" := by
  refine ⟨rfl, ?_⟩
  intro h
  simp [isEnvelopeField] at h

/-- C10: `castVote`, unlike `submitVote`, performs no session check, no
poll-existence check and no option-index bounds check: for every database,
non-empty `poll_id`, non-empty caller-supplied `user_id` and arbitrary
integer `option_index` (negative included), it proceeds straight to the
upsert and reports success whenever the store accepts the write. -/
theorem claim_C10_castVote_unchecked (db : DB) (now poll_id user_id : String)
    (option_index : Int) (hp : poll_id ≠ "") (hu : user_id ≠ "") :
    castVote db now none poll_id user_id option_index
      = (⟨true, none, some [⟨poll_id, user_id, option_index, now⟩]⟩,
        { db with votes :=
            upsertVote db.votes ⟨poll_id, user_id, option_index, now⟩ }) := by
  have hp1 : (poll_id == "") = false := beq_eq_false_iff_ne.mpr hp
  have hu1 : (user_id == "") = false := beq_eq_false_iff_ne.mpr hu
  simp only [castVote, hp1, hu1, Bool.or_self, Bool.false_eq_true, if_false]

theorem claim_C10_witness :
    castVote ⟨[], [], []⟩ "t" none "p9" "anyone" (-5)
      = (⟨true, none, some [⟨"p9", "anyone", -5, "t"⟩]⟩,
        ⟨[], [⟨"p9", "anyone", -5, "t"⟩], []⟩) := by
  have h := claim_C10_castVote_unchecked ⟨[], [], []⟩ "t" "p9" "anyone" (-5)
    (by decide) (by decide)
  simpa using h

end AlxPolly
